import Mathlib

/-!
Verification of the tab-clustering knowledge-graph service
(kg_graph_search): a shallow embedding of the cluster engine
(`agents/models.py`, `agents/tab_clusterer.py`), the SQLite graph store
(`graph/database.py`) and the ingest / background-enrichment paths of the
HTTP server (`server/app.py`), together with theorems settling the
behavioural claims about centroid maintenance, reconciliation, orphan
collection, cluster naming and background enrichment.

Modelling conventions:
* machine floats become exact rationals (`ℚ`); vectors are `List ℚ`;
* wall-clock timestamps become abstract integer ticks (`Int`), measured in
  days where the 7-day enrichment TTL matters;
* the external LLM / embedding / search services are opaque function
  parameters gathered in `Params`; theorems quantify over them;
* SQLite tables become Lean lists of rows kept in insertion (rowid) order;
  the source never executes `PRAGMA foreign_keys = ON`, so the
  `ON DELETE CASCADE` clauses declared in `_initialize_schema` are inert
  under the default sqlite3 connection settings, and the embedding of
  `remove_tab` therefore deletes only the `tabs` row, exactly as the
  running code does.
-/

namespace KG

/-- Embedding vector: a float vector of the source, modelled exactly. -/
abbrev Vec := List ℚ

/-- Row of the `entities` table (`graph/database.py`,
`_initialize_schema`).  Fields not read by any claim (`description`,
`created_at`) are omitted; `eid` is the AUTOINCREMENT primary key,
`enrichedAt` an abstract timestamp in days. -/
structure EntityRow where
  eid : Nat
  name : String
  etype : String
  webDescription : Option String
  relatedConcepts : List String
  sourceUrl : Option String
  isEnriched : Bool
  enrichedAt : Option Int
  embedding : Option Vec
deriving Repr, DecidableEq

/-- Row of the `tabs` table.  Fields not read by any claim (favicon,
summary, label, window ids, timestamps other than `closedAt`) are
omitted. -/
structure TabRow where
  tid : Int
  url : String
  title : String
  embedding : Option Vec
  isActive : Bool
  closedAt : Option Int
deriving Repr, DecidableEq

/-- Row of the `entity_tab_contexts` table. -/
structure CtxRow where
  eid : Nat
  tid : Int
  descr : String
deriving Repr, DecidableEq

/-- The SQLite store of `KnowledgeGraphDB`: the four tables used by the
claims plus the triplets table, each as a list of rows in rowid order.
The `tab_relationships` table is write-only on every path the claims
touch and is omitted.  `tabEntities` rows are `(tab_id, entity_id)`
pairs; `triplets` rows are `(subject_id, predicate, object_id)`. -/
structure DB where
  entities : List EntityRow
  tabs : List TabRow
  tabEntities : List (Int × Nat)
  contexts : List CtxRow
  triplets : List (Nat × String × Nat)
  nextEntityId : Nat
deriving Repr, DecidableEq

/-- SELECT * FROM entities WHERE name = ? (first row):
`KnowledgeGraphDB.find_entity_by_name` with no type filter. -/
def findEntityByName (db : DB) (n : String) : Option EntityRow :=
  (db.entities.filter (fun e => e.name == n)).head?

/-- INSERT OR IGNORE keyed on UNIQUE(name, entity_type), returning the
new or existing id: `KnowledgeGraphDB.add_entity`.  Note the ignore
branch performs no update of the existing row. -/
def addEntity (db : DB) (row : EntityRow) : Nat × DB :=
  match (db.entities.filter (fun e => e.name == row.name && e.etype == row.etype)).head? with
  | some e => (e.eid, db)
  | none =>
      (db.nextEntityId,
       { db with
          entities := db.entities ++ [{ row with eid := db.nextEntityId }],
          nextEntityId := db.nextEntityId + 1 })

/-- SELECT * FROM entities WHERE name IN (...):
`KnowledgeGraphDB.get_entities_by_names` (batch fetch, all matching
rows, any type). -/
def getEntitiesByNames (db : DB) (names : List String) : List EntityRow :=
  if names.isEmpty then [] else db.entities.filter (fun e => names.contains e.name)

/-- UPDATE tabs SET closed_at = now, is_active = 0 WHERE id = ? AND
is_active = 1: `KnowledgeGraphDB.close_tab`. -/
def closeTab (db : DB) (tid : Int) (now : Int) : DB :=
  { db with
      tabs := db.tabs.map (fun t =>
        if t.tid == tid && t.isActive then { t with isActive := false, closedAt := some now } else t) }

/-- DELETE FROM tabs WHERE id = ?: `KnowledgeGraphDB.remove_tab`.
The source never enables `PRAGMA foreign_keys`, so the declared
`ON DELETE CASCADE` on `tab_entities`, `entity_tab_contexts` and
`tab_relationships` does not fire: only the `tabs` row disappears and
any `tab_entities` rows for this tab id are left dangling. -/
def removeTabRow (db : DB) (tid : Int) : DB :=
  { db with tabs := db.tabs.filter (fun t => t.tid != tid) }

/-- SELECT e.id FROM entities e LEFT JOIN tab_entities te ... WHERE
te.entity_id IS NULL: `KnowledgeGraphDB.get_orphaned_entities`.  An
entity is orphaned iff no `tab_entities` row references it; dangling
rows (whose tab no longer exists) still count as references. -/
def getOrphanedEntities (db : DB) : List Nat :=
  (db.entities.filter (fun e => !(db.tabEntities.any (fun te => te.2 == e.eid)))).map (fun e => e.eid)

/-- Delete all orphaned entities and their triplets, returning the count:
`KnowledgeGraphDB.remove_orphaned_entities`. -/
def removeOrphanedEntities (db : DB) : Nat × DB :=
  let orphans := getOrphanedEntities db
  if orphans.isEmpty then (0, db)
  else
    (orphans.length,
     { db with
        triplets := db.triplets.filter (fun tr => !(orphans.contains tr.1) && !(orphans.contains tr.2.2)),
        entities := db.entities.filter (fun e => !(orphans.contains e.eid)) })

/-- SELECT * FROM tabs WHERE is_active = 1:
`KnowledgeGraphDB.get_active_tabs` (the ORDER BY last_accessed of the
source only permutes the reconciliation loop over rows, which commutes;
we keep rowid order). -/
def getActiveTabs (db : DB) : List TabRow :=
  db.tabs.filter (fun t => t.isActive)

/-- Upsert of a tab row: `KnowledgeGraphDB.add_tab`.  The update branch
rewrites url, title, embedding and resets is_active = 1, closed_at =
NULL; the insert branch appends a fresh active row. -/
def addTabRow (db : DB) (tid : Int) (url title : String) (emb : Option Vec) : DB :=
  if db.tabs.any (fun r => r.tid == tid) then
    { db with
        tabs := db.tabs.map (fun r =>
          if r.tid == tid then
            { r with url := url, title := title, embedding := emb, isActive := true, closedAt := none }
          else r) }
  else
    { db with tabs := db.tabs ++ [{ tid := tid, url := url, title := title, embedding := emb, isActive := true, closedAt := none }] }

/-- INSERT ... ON CONFLICT(tab_id, entity_id) DO UPDATE last_seen:
`KnowledgeGraphDB.link_tab_to_entity` (timestamps are not modelled, so
the conflict branch is the identity on the modelled state). -/
def linkTabToEntity (db : DB) (tid : Int) (eid : Nat) : DB :=
  if db.tabEntities.contains (tid, eid) then db
  else { db with tabEntities := db.tabEntities ++ [(tid, eid)] }

/-- UPDATE entities SET web_description, entity_type, related_concepts,
source_url, is_enriched = 1, enriched_at = now WHERE id = ?:
`KnowledgeGraphDB.update_entity_enrichment`.  The embedding column is
not touched by this statement. -/
def updateEntityEnrichment (db : DB) (eid : Nat) (descr etype : String)
    (related : List String) (src : Option String) (now : Int) : DB :=
  { db with
      entities := db.entities.map (fun e =>
        if e.eid == eid then
          { e with webDescription := some descr, etype := etype, relatedConcepts := related,
                   sourceUrl := src, isEnriched := true, enrichedAt := some now }
        else e) }

/-- INSERT OR REPLACE INTO entity_tab_contexts:
`KnowledgeGraphDB.save_entity_tab_context`. -/
def saveEntityTabContext (db : DB) (eid : Nat) (tid : Int) (descr : String) : DB :=
  { db with
      contexts := (db.contexts.filter (fun c => !(c.eid == eid && c.tid == tid))) ++ [{ eid := eid, tid := tid, descr := descr }] }

/-- SELECT description FROM entity_tab_contexts WHERE entity_id = ? AND
tab_id = ?: `KnowledgeGraphDB.get_entity_tab_context`. -/
def getEntityTabContext (db : DB) (eid : Nat) (tid : Int) : Option String :=
  ((db.contexts.filter (fun c => c.eid == eid && c.tid == tid)).head?).map (fun c => c.descr)

/-- Cache-TTL check of `KnowledgeGraphDB.needs_enrichment(entity_id,
cache_ttl_days)`: missing row gives False; an unenriched row gives True;
an enriched row gives True only when enriched_at is set and now is past
enriched_at + ttl. -/
def needsEnrichment (db : DB) (eid : Nat) (now ttl : Int) : Bool :=
  match (db.entities.filter (fun e => e.eid == eid)).head? with
  | none => false
  | some e =>
      if !e.isEnriched then true
      else
        match e.enrichedAt with
        | some t => decide (t + ttl < now)
        | none => false

/-- The name filter of the background worker
(`server/app.py`, `enrich_entities_in_background`): batch-fetch the
names, collect the names of rows with is_enriched set, and keep the
input names not in that set.  The list returned here is exactly the list
handed to `EntityEnricher.enrich_entities`. -/
def entitiesToEnrich (db : DB) (names : List String) : List String :=
  let existing := getEntitiesByNames db names
  let enrichedNames := (existing.filter (fun e => e.isEnriched)).map (fun e => e.name)
  names.filter (fun n => !(enrichedNames.contains n))

/-- Modelled from the claim (spec section 4.5 and 4.8): a name needs
enrichment when its stored entity has is_enriched = false, or
enriched_at = null, or now minus enriched_at exceeds the cache TTL.
This is the predicate the claim asserts the background worker applies;
it is written from the words of the spec, to be compared with the
source-derived `entitiesToEnrich`. -/
def claimNeedsEnrichment (db : DB) (now ttl : Int) (n : String) : Bool :=
  match findEntityByName db n with
  | none => true
  | some e =>
      !e.isEnriched ||
      (match e.enrichedAt with
       | none => true
       | some t => decide (t + ttl < now))

/-- In-memory tab of the cluster engine (`agents/models.py`, class Tab).
Fields not read by any claim (favicon, summary, timestamps, window and
group ids, the important flag) are omitted. -/
structure Tab where
  id : Int
  url : String
  title : String
  entities : List String
  embedding : Option Vec
deriving Repr, DecidableEq

/-- In-memory cluster (`agents/models.py`, class TabCluster).  The color,
confidence and created_at fields and the internal `_centroid_dirty` flag
are not read by any claim and are omitted; `cid` stands for the uuid
string id. -/
structure Cluster where
  cid : Nat
  name : String
  tabs : List Tab
  sharedEntities : List String
  tabCount : Nat
  tabsAddedSinceNaming : Nat
  centroid : Option Vec
deriving Repr, DecidableEq

/-- Pointwise vector sum, the `np.mean` accumulation step. -/
def vadd (a b : Vec) : Vec := List.zipWith (· + ·) a b

/-- Mean vector of a list of vectors: `np.mean(vectors, axis=0).tolist()`
(the source only ever applies it to equal-length vectors). -/
def vmean : List Vec → Vec
  | [] => []
  | v :: rest => (rest.foldl vadd v).map (fun x => x / ((rest.length : ℚ) + 1))

/-- Idempotent append of a tab (`TabCluster.add_tab`): a duplicate tab id
leaves the cluster unchanged, otherwise the tab is appended and both
tab_count and tabs_added_since_naming are incremented. -/
def Cluster.addTab (c : Cluster) (t : Tab) : Cluster :=
  if c.tabs.any (fun u => u.id == t.id) then c
  else
    { c with
        tabs := c.tabs ++ [t],
        tabCount := c.tabCount + 1,
        tabsAddedSinceNaming := c.tabsAddedSinceNaming + 1 }

/-- Removal by tab id (`TabCluster.remove_tab`): filters the tab list and
reports whether anything was removed; on removal tab_count is resynced to
the new length. -/
def Cluster.removeTabById (c : Cluster) (tid : Int) : Bool × Cluster :=
  let rest := c.tabs.filter (fun u => u.id != tid)
  if rest.length < c.tabs.length then
    (true, { c with tabs := rest, tabCount := rest.length })
  else (false, c)

/-- Unique entity names over the tabs of a cluster, in first-occurrence
order (the Python set in `TabCluster._get_entity_embeddings`; only
membership is consumed downstream). -/
def allEntityNames (tabs : List Tab) : List String :=
  (tabs.flatMap (fun t => t.entities)).eraseDups

/-- Entity-name embeddings available in the store for the tabs of a
cluster (`TabCluster._get_entity_embeddings`): batch fetch of all rows
matching the names, keeping the embeddings that are present. -/
def entityEmbeddingsFor (db : DB) (tabs : List Tab) : List Vec :=
  (getEntitiesByNames db (allEntityNames tabs)).filterMap (fun e => e.embedding)

/-- Eager centroid recomputation (`TabCluster.update_centroid`): empty
cluster gives null; with a store, prefer the mean of the entity-name
embeddings; otherwise the mean of the tab embeddings that are present;
otherwise null. -/
def updateCentroid (db : Option DB) (c : Cluster) : Cluster :=
  if c.tabs.isEmpty then { c with centroid := none }
  else
    let fromEntities : List Vec :=
      match db with
      | some d => entityEmbeddingsFor d c.tabs
      | none => []
    if !fromEntities.isEmpty then { c with centroid := some (vmean fromEntities) }
    else
      let tabEmbs := c.tabs.filterMap (fun t => t.embedding)
      if !tabEmbs.isEmpty then { c with centroid := some (vmean tabEmbs) }
      else { c with centroid := none }

/-- Stable insertion of a name into a list sorted descending by count:
a new name goes before the first strictly smaller count, hence after all
equal counts, which reproduces the stability of the Python sort. -/
def insertByCountDesc (counts : String → Nat) (x : String) : List String → List String
  | [] => [x]
  | y :: ys => if counts y ≤ counts x then x :: y :: ys else y :: insertByCountDesc counts x ys

/-- Stable descending sort by count, the semantics of
`sorted(shared, key=lambda e: entity_counts[e], reverse=True)`. -/
def sortByCountDesc (counts : String → Nat) : List String → List String
  | [] => []
  | x :: xs => insertByCountDesc counts x (sortByCountDesc counts xs)

/-- Shared-entity recomputation
(`TabClusterer._update_cluster_shared_entities`): count entity
occurrences over the current tabs, keep those reaching 2 occurrences
(or 1 when the cluster has a single tab), sorted descending by count. -/
def updateSharedEntities (c : Cluster) : Cluster :=
  if c.tabs.isEmpty then { c with sharedEntities := [] }
  else
    let occs := c.tabs.flatMap (fun t => t.entities)
    let counts := fun e => (occs.filter (fun x => x == e)).length
    let minOcc := if 1 < c.tabs.length then 2 else 1
    let shared := occs.eraseDups.filter (fun e => minOcc ≤ counts e)
    { c with sharedEntities := sortByCountDesc counts shared }

/-- Outcome of one successful `EntityEnricher.enrich_entity` call; `none`
at the call site models is_enriched = False (parse failure, retries
exhausted, or an exception swallowed by `_enrich_entity_async`). -/
structure EnrichOut where
  descr : String
  etype : String
  related : List String
  sourceUrl : Option String
deriving Repr, DecidableEq

/-- Opaque collaborators of the cluster engine: cosine similarity over
float vectors (irrational in general, hence abstract), the single and
batch LLM naming calls, the embedding and entity-extraction services,
the optional per-(entity, tab) enricher, and the numeric configuration
of `TabClusterer.__init__`. -/
structure Params where
  cos : Vec → Vec → ℚ
  gen : Cluster → String
  genBatch : List Cluster → List String
  embed : String → Vec
  embedBatch : List String → List Vec
  extract : String → String → List String
  extractBatch : List (String × String) → List (List String)
  enricher : Option (String → Int → Option EnrichOut)
  threshold : ℚ
  entityWeight : ℚ

/-- Jaccard similarity over entity-name sets
(`TabClusterer._entity_overlap_score`). -/
def entityOverlapScore (a b : List String) : ℚ :=
  if a.isEmpty || b.isEmpty then 0
  else
    let sa := a.eraseDups
    let sb := b.eraseDups
    let inter := (sa.filter (fun x => sb.contains x)).length
    let union := (sa ++ sb.filter (fun x => !(sa.contains x))).length
    if union == 0 then 0 else (inter : ℚ) / (union : ℚ)

/-- Hybrid similarity (`TabClusterer._hybrid_similarity`):
(1 - w) * cosine + w * jaccard. -/
def hybridSimilarity (p : Params) (e1 e2 : Vec) (a b : List String) : ℚ :=
  (1 - p.entityWeight) * p.cos e1 e2 + p.entityWeight * entityOverlapScore a b

/-- Per-tab enrichment side effects
(`TabClusterer._enrich_entity_async`): on a successful outcome, save the
per-tab context when the tab id is truthy and the description nonempty,
then write the global enrichment fields.  A `none` outcome (failure or
is_enriched = False) leaves the store unchanged.  The embedding column
of the entity is never written on this path. -/
def applyEnrichment (db : DB) (eid : Nat) (name : String) (tid : Int)
    (enr : String → Int → Option EnrichOut) (now : Int) : DB :=
  match enr name tid with
  | none => db
  | some out =>
      let db1 := if tid != 0 && out.descr != "" then saveEntityTabContext db eid tid out.descr else db
      updateEntityEnrichment db1 eid out.descr out.etype out.related out.sourceUrl now

/-- Store a tab and its entities (`TabClusterer._store_tab_in_graph`):
upsert the tab row; for each entity name, find or create the entity
(new entities get type Concept and no embedding), fire the enricher for
new entities and for known entities lacking a context for this tab, and
link the tab to the entity.  The summary generation only writes tab
metadata columns not modelled here, and the final
`compute_and_store_tab_relationships` only writes the unmodelled
`tab_relationships` table. -/
def storeTabInGraph (p : Params) (db : DB) (t : Tab) (now : Int) : DB :=
  let db1 := addTabRow db t.id t.url t.title t.embedding
  t.entities.foldl
    (fun d name =>
      match findEntityByName d name with
      | none =>
          let r := addEntity d
            { eid := 0, name := name, etype := "Concept", webDescription := none,
              relatedConcepts := [], sourceUrl := none, isEnriched := false,
              enrichedAt := none, embedding := none }
          let d2 :=
            match p.enricher with
            | some enr => applyEnrichment r.2 r.1 name t.id enr now
            | none => r.2
          linkTabToEntity d2 t.id r.1
      | some e =>
          let d2 :=
            match p.enricher with
            | some enr =>
                if getEntityTabContext d e.eid t.id == none then
                  applyEnrichment d e.eid name t.id enr now
                else d
            | none => d
          linkTabToEntity d2 t.id e.eid)
    db1

/-- Add a tab to an existing cluster (`TabClusterer.add_tab_to_cluster`):
append the tab, eagerly recompute the centroid against the store, update
the shared entities, persist the tab, then rename through the LLM when
tabs_added_since_naming has reached the rename threshold (resetting the
counter).  The third component is the naming log: the number of tabs the
cluster contains at each LLM naming call made by this operation. -/
def addTabToCluster (p : Params) (rt : Nat) (db : DB) (c : Cluster) (t : Tab) (now : Int) :
    Cluster × DB × List Nat :=
  let c1 := updateSharedEntities (updateCentroid (some db) (c.addTab t))
  let db1 := storeTabInGraph p db t now
  if rt ≤ c1.tabsAddedSinceNaming then
    ({ c1 with name := p.gen c1, tabsAddedSinceNaming := 0 }, db1, [c1.tabs.length])
  else (c1, db1, [])

/-- Remove a tab from a cluster held in the engine list
(`TabClusterer.remove_tab_from_cluster`): on an actual removal the
centroid is eagerly recomputed, shared entities updated, the tab row
hard-deleted from the store (`KnowledgeGraphDB.remove_tab`), and the
cluster is dropped from the engine when fewer than 2 tabs remain.
Removal never triggers a rename.  The boolean reports whether a tab was
removed. -/
def removeTabFromCluster (db : DB) (clusters : List Cluster) (c : Cluster) (tid : Int) :
    Bool × List Cluster × DB :=
  let r := c.removeTabById tid
  if r.1 then
    let c1 := updateSharedEntities (updateCentroid (some db) r.2)
    let db1 := removeTabRow db tid
    if c1.tabCount < 2 then
      (true, clusters.filter (fun x => x.cid != c.cid), db1)
    else
      (true, clusters.map (fun x => if x.cid == c.cid then c1 else x), db1)
  else (false, clusters, db)

/-- Remove a tab wherever it lives (`TabClusterer.remove_tab`): scan the
clusters for the first one containing the tab id and delegate; report
False when no cluster contains it (in which case neither the engine nor
the store changes). -/
def engineRemoveTab (db : DB) (clusters : List Cluster) (tid : Int) :
    Bool × List Cluster × DB :=
  match clusters.find? (fun c => c.tabs.any (fun u => u.id == tid)) with
  | some c => removeTabFromCluster db clusters c tid
  | none => (false, clusters, db)

/-- Create a new cluster seeded with one tab
(`TabClusterer.create_new_cluster`): the seed carries the placeholder
name (or the supplied initial name); the seeding add runs with the
rename threshold forced to 999 when naming is deferred; when neither an
initial name was supplied nor naming deferred, the cluster is named
through the LLM immediately, while it holds exactly the one seed tab.
Returns the engine list with the new cluster appended, the store, the
next fresh cluster id, and the naming log. -/
def createNewCluster (p : Params) (rt : Nat) (db : DB) (clusters : List Cluster)
    (nextId : Nat) (t : Tab) (initialName : Option String) (deferNaming : Bool) (now : Int) :
    List Cluster × DB × Nat × List Nat :=
  let seed : Cluster :=
    { cid := nextId, name := initialName.getD "New Cluster", tabs := [], sharedEntities := [],
      tabCount := 0, tabsAddedSinceNaming := 0, centroid := none }
  let rtEff := if deferNaming then 999 else rt
  let r := addTabToCluster p rtEff db seed t now
  let c1 := r.1
  let final :=
    if initialName.isNone && !deferNaming then
      ({ c1 with name := p.gen c1, tabsAddedSinceNaming := 0 }, r.2.2 ++ [c1.tabs.length])
    else (c1, r.2.2)
  (clusters ++ [final.1], r.2.1, nextId + 1, final.2)

/-- One iteration of the scoring loop of
`TabClusterer.find_best_cluster`: clusters without a centroid are
skipped; otherwise the hybrid score is used when the entity weight is
positive and both entity sets are nonempty, else pure cosine, and a
strictly better score replaces the running best. -/
def scoreStep (p : Params) (t : Tab) (emb : Vec) (acc : Option Cluster × ℚ) (c : Cluster) :
    Option Cluster × ℚ :=
  match c.centroid with
  | none => acc
  | some cen =>
      let sim :=
        if 0 < p.entityWeight ∧ t.entities.isEmpty = false ∧ c.sharedEntities.isEmpty = false then
          hybridSimilarity p emb cen t.entities c.sharedEntities
        else p.cos emb cen
      if acc.2 < sim then (some c, sim) else acc

/-- Best-scoring cluster for a tab (`TabClusterer.find_best_cluster`):
falsy embedding or an empty engine give none; otherwise fold over the
clusters skipping null centroids, scoring with the hybrid similarity
when the entity weight is positive and both entity sets are nonempty,
else pure cosine; strict improvement wins, so the first cluster
reaching the best similarity is kept; the result is returned only when
the best similarity reaches the threshold.  (For a threshold above -1
this coincides with the source; at thresholds at or below -1 with every
centroid null the source would return a pair holding None and crash its
caller, a state no configuration of the service reaches.) -/
def findBestCluster (p : Params) (clusters : List Cluster) (t : Tab) :
    Option (Cluster × ℚ) :=
  if (t.embedding.getD []).isEmpty then none
  else if clusters.isEmpty then none
  else
    let emb := t.embedding.getD []
    let best := clusters.foldl (scoreStep p t emb) (none, -1)
    if p.threshold ≤ best.2 then
      match best.1 with
      | some c => some (c, best.2)
      | none => none
    else none

/-- Single-tab entry point (`TabClusterer.process_tab`): fill in missing
entities through the scalar extractor and a missing (or falsy) embedding
through the scalar embedding call, then either add to the best cluster
or create a new cluster with immediate (non-deferred) naming. -/
def processTab (p : Params) (rt : Nat) (db : DB) (clusters : List Cluster)
    (nextId : Nat) (t : Tab) (now : Int) : List Cluster × DB × Nat × List Nat :=
  let t1 := if t.entities.isEmpty then { t with entities := p.extract t.title t.url } else t
  let t2 :=
    if (t1.embedding.getD []).isEmpty then
      { t1 with embedding := some (p.embed (t1.title ++ " " ++ t1.url)) }
    else t1
  match findBestCluster p clusters t2 with
  | some res =>
      let r := addTabToCluster p rt db res.1 t2 now
      (clusters.map (fun x => if x.cid == res.1.cid then r.1 else x), r.2.1, nextId, r.2.2)
  | none => createNewCluster p rt db clusters nextId t2 none false now

/-- Engine snapshot threaded through a batch ingest. -/
structure BatchState where
  clusters : List Cluster
  db : DB
  nextId : Nat
  events : List Nat
deriving Repr, DecidableEq

/-- Positional assignment mirroring Python `zip` over the sub-list of
tabs satisfying `needs`: values are consumed in order by the needy tabs;
a shorter value list leaves the remaining tabs unchanged, a longer one
is truncated. -/
def zipAssign {α : Type} (needs : Tab → Bool) (upd : Tab → α → Tab) :
    List Tab → List α → List Tab
  | [], _ => []
  | t :: ts, vs =>
      if needs t then
        match vs with
        | [] => t :: zipAssign needs upd ts []
        | v :: vrest => upd t v :: zipAssign needs upd ts vrest
      else t :: zipAssign needs upd ts vs

/-- Batch naming call (`TabClusterer.generate_cluster_names_batch`): one
structured LLM call; a length mismatch between the returned names and
the clusters falls back to per-cluster scalar naming. -/
def generateClusterNamesBatch (p : Params) (cs : List Cluster) : List String :=
  if cs.isEmpty then []
  else
    let names := p.genBatch cs
    if names.length == cs.length then names else cs.map p.gen

/-- Write batch names back (`process_tabs_batch`, the zip over
clusters_to_name and names): each named cluster gets the name and a
reset tabs_added_since_naming counter. -/
def applyNames (clusters : List Cluster) (pairs : List (Cluster × String)) : List Cluster :=
  pairs.foldl
    (fun cs pr => cs.map (fun x =>
      if x.cid == pr.1.cid then { x with name := pr.2, tabsAddedSinceNaming := 0 } else x))
    clusters

/-- One iteration of the clustering loop of
`TabClusterer.process_tabs_batch`: assign the tab to the best-scoring
cluster (writing the updated cluster back into the engine list) or seed
a new cluster with deferred naming, accumulating the naming log. -/
def batchStep (p : Params) (rt : Nat) (now : Int) (st : BatchState) (t : Tab) : BatchState :=
  match findBestCluster p st.clusters t with
  | some res =>
      let r := addTabToCluster p rt st.db res.1 t now
      { clusters := st.clusters.map (fun x => if x.cid == res.1.cid then r.1 else x),
        db := r.2.1, nextId := st.nextId, events := st.events ++ r.2.2 }
  | none =>
      let r := createNewCluster p rt st.db st.clusters st.nextId t none true now
      { clusters := r.1, db := r.2.1, nextId := r.2.2.1, events := st.events ++ r.2.2.2 }

/-- Batch ingest clustering (`TabClusterer.process_tabs_batch`) as
invoked by the ingest endpoint, i.e. with skip_enrichment = True (the
only call site); the skipped blocking `_enrich_entities_for_tabs`
branch is not modelled.  Missing embeddings and entity lists are filled
by zip-assignment from the batch services; each tab is then assigned in
batch order; clusters newly created in this batch that still carry the
placeholder name and hold at least two tabs receive batch naming.  The
naming log extends the per-add logs with one entry per batch-named
cluster, again recording how many tabs the cluster contains when it is
passed to naming. -/
def processTabsBatch (p : Params) (rt : Nat) (db : DB) (clusters : List Cluster)
    (nextId : Nat) (tabs : List Tab) (now : Int) : BatchState :=
  let needEmb := tabs.filter (fun t => (t.embedding.getD []).isEmpty)
  let tabs1 := zipAssign (fun t => (t.embedding.getD []).isEmpty)
    (fun t v => { t with embedding := some v }) tabs
    (p.embedBatch (needEmb.map (fun t => t.title ++ " " ++ t.url)))
  let needEnt := tabs1.filter (fun t => t.entities.isEmpty)
  let tabs2 := zipAssign (fun t => t.entities.isEmpty)
    (fun t es => { t with entities := es }) tabs1
    (p.extractBatch (needEnt.map (fun t => (t.title, t.url))))
  let before := clusters.map (fun c => c.cid)
  let st1 := tabs2.foldl (batchStep p rt now)
    { clusters := clusters, db := db, nextId := nextId, events := [] }
  let toName := st1.clusters.filter
    (fun c => !(before.contains c.cid) && c.name == "New Cluster" && decide (2 ≤ c.tabCount))
  if toName.isEmpty then st1
  else
    let names := generateClusterNamesBatch p toName
    { st1 with
        clusters := applyNames st1.clusters (toName.zip names),
        events := st1.events ++ toName.map (fun c => c.tabs.length) }

/-- Process-wide state of the server: the store plus the in-memory
cluster engine. -/
structure ServerState where
  db : DB
  clusters : List Cluster
  nextId : Nat
deriving Repr, DecidableEq

/-- Reconciliation step of the ingest endpoint (`server/app.py`,
`ingest_tabs`): the browser batch is ground truth; every tab active in
the store whose id is absent from the batch is marked closed and removed
from the cluster engine (which hard-deletes its tab row when some
cluster contained it); when at least one tab was closed, orphaned
entities are collected.  Returns the new state and the closed count. -/
def reconcile (st : ServerState) (activeIds : List Int) (now : Int) : ServerState × Nat :=
  let dbActive := getActiveTabs st.db
  let r := dbActive.foldl
    (fun (acc : ServerState × Nat) row =>
      if activeIds.contains row.tid then acc
      else
        let db1 := closeTab acc.1.db row.tid now
        let r2 := engineRemoveTab db1 acc.1.clusters row.tid
        ({ db := r2.2.2, clusters := r2.2.1, nextId := acc.1.nextId }, acc.2 + 1))
    (st, 0)
  if 0 < r.2 then
    ({ r.1 with db := (removeOrphanedEntities r.1.db).2 }, r.2)
  else r

/-- Full ingest call (`server/app.py`, `ingest_tabs`): reconciliation
against the batch ids followed by batch clustering; the background
enrichment enqueue does not touch the state returned to the caller and
is modelled separately by `entitiesToEnrich`. -/
def ingest (p : Params) (rt : Nat) (st : ServerState) (batch : List Tab) (now : Int) :
    ServerState × List Nat :=
  let r := reconcile st (batch.map (fun t => t.id)) now
  let b := processTabsBatch p rt r.1.db r.1.clusters r.1.nextId batch now
  ({ db := b.db, clusters := b.clusters, nextId := b.nextId }, b.events)

/-- Embedding view of the store under a fixed name set: the entity
embeddings that `centroidSpec` and `update_centroid` read.  Every write
performed inside an add or remove operation preserves this view. -/
def embView (db : DB) (ns : List String) : List Vec :=
  (db.entities.filter (fun e => ns.contains e.name)).filterMap (fun e => e.embedding)

/-- Modelled from the claim (ghost-cluster prevention): the centroid
dictated by the tabs currently present — the mean of the unique
entity-name embeddings found in the graph store for the current tabs
entities when at least one such embedding exists, otherwise the mean of
the present tab embeddings, otherwise null.  Written from the words of
the claim, to be compared with the source-derived `updateCentroid`. -/
def centroidSpec (db : DB) (tabs : List Tab) : Option Vec :=
  let entEmbs := embView db (allEntityNames tabs)
  if !entEmbs.isEmpty then some (vmean entEmbs)
  else
    let tabEmbs := tabs.filterMap (fun t => t.embedding)
    if !tabEmbs.isEmpty then some (vmean tabEmbs) else none

/-- Consistency of an engine cluster, maintained by every engine
operation: tab_count mirrors the tab list, a cluster at or below one tab
has not accumulated adds past the rename threshold, and an empty cluster
carries no centroid. -/
def ClusterSane (rt : Nat) (c : Cluster) : Prop :=
  c.tabCount = c.tabs.length ∧
  (c.tabs.length ≤ 1 → c.tabsAddedSinceNaming < rt) ∧
  (c.tabs = [] → c.centroid = none)

/-- Concrete opaque collaborators for witnesses: constant services, zero
cosine, the server configuration w = 1/2. -/
def pFix : Params :=
  { cos := fun _ _ => 0,
    gen := fun _ => "Named",
    genBatch := fun cs => cs.map (fun _ => "BatchName"),
    embed := fun _ => [1],
    embedBatch := fun l => l.map (fun _ => [1]),
    extract := fun _ _ => ["Kw"],
    extractBatch := fun l => l.map (fun _ => ["Kw"]),
    enricher := none,
    threshold := 1 / 2,
    entityWeight := 1 / 2 }

/-- Witness tab 1, carrying the entity Neo4j. -/
def tabOne : Tab :=
  { id := 1, url := "u1", title := "T1", entities := ["Neo4j"], embedding := some [1] }

/-- Witness tab 2, carrying the entity React. -/
def tabTwo : Tab :=
  { id := 2, url := "u2", title := "T2", entities := ["React"], embedding := some [1] }

/-- Witness tab 3, sharing the entity React. -/
def tabThree : Tab :=
  { id := 3, url := "u3", title := "T3", entities := ["React"], embedding := some [1] }

/-- Witness store: tabs 1 and 2 active; entity 0 (Neo4j) referenced only
by tab 1, entity 1 (React) referenced only by tab 2. -/
def dbFix : DB :=
  { entities :=
      [{ eid := 0, name := "Neo4j", etype := "Concept", webDescription := none,
         relatedConcepts := [], sourceUrl := none, isEnriched := false,
         enrichedAt := none, embedding := none },
       { eid := 1, name := "React", etype := "Concept", webDescription := none,
         relatedConcepts := [], sourceUrl := none, isEnriched := false,
         enrichedAt := none, embedding := none }],
    tabs :=
      [{ tid := 1, url := "u1", title := "T1", embedding := some [1], isActive := true, closedAt := none },
       { tid := 2, url := "u2", title := "T2", embedding := some [1], isActive := true, closedAt := none }],
    tabEntities := [(1, 0), (2, 1)],
    contexts := [],
    triplets := [],
    nextEntityId := 2 }

/-- Witness engine cluster holding tabs 1 and 2. -/
def clusterFix : Cluster :=
  { cid := 0, name := "Research", tabs := [tabOne, tabTwo], sharedEntities := [],
    tabCount := 2, tabsAddedSinceNaming := 0, centroid := some [1] }

/-- Witness server state for the reconciliation claims. -/
def stFix : ServerState :=
  { db := dbFix, clusters := [clusterFix], nextId := 1 }

/-- Witness cluster with three tabs, for the removal part of the
centroid claim. -/
def clusterThree : Cluster :=
  { cid := 7, name := "Docs", tabs := [tabOne, tabTwo, tabThree], sharedEntities := ["React"],
    tabCount := 3, tabsAddedSinceNaming := 1, centroid := some [1] }

/-- Empty witness store. -/
def dbEmpty : DB :=
  { entities := [], tabs := [], tabEntities := [], contexts := [], triplets := [], nextEntityId := 0 }

/-- Witness store for the background-enrichment claim: the entity React
was enriched at day 0 and the clock reads day 10, past the 7-day TTL. -/
def dbTtl : DB :=
  { entities :=
      [{ eid := 0, name := "React", etype := "Concept", webDescription := some "old",
         relatedConcepts := [], sourceUrl := none, isEnriched := true,
         enrichedAt := some 0, embedding := none }],
    tabs := [], tabEntities := [], contexts := [], triplets := [], nextEntityId := 1 }

/-- Witness collaborators with entity weight 0 and threshold 0 (pure
cosine scoring with a constant zero cosine), so that every embedded tab
joins the first cluster carrying a centroid. -/
def pZero : Params :=
  { cos := fun _ _ => 0,
    gen := fun _ => "Named",
    genBatch := fun cs => cs.map (fun _ => "BatchName"),
    embed := fun _ => [1],
    embedBatch := fun l => l.map (fun _ => [1]),
    extract := fun _ _ => ["Kw"],
    extractBatch := fun l => l.map (fun _ => ["Kw"]),
    enricher := none,
    threshold := 0,
    entityWeight := 0 }

/-- Witness tab 4, sharing the entity Neo4j with tab 1. -/
def tabFour : Tab :=
  { id := 4, url := "u4", title := "T4", entities := ["Neo4j"], embedding := some [1] }

/-!
Theorems.  Helper lemmas come first, then one theorem per claim (with
counterexamples and witnesses where required).
-/

/-- C5 (counterexample).  The claim says the background worker enriches
exactly the names satisfying the cache-TTL rule.  In the store `dbTtl`
the entity React was enriched at day 0 and the clock reads day 10, past
the 7-day TTL, so the rule demands re-enrichment; yet the worker filter
`enrich_entities_in_background` keeps no name at all, because it tests
only the is_enriched flag and never consults enriched_at. -/
theorem background_worker_skips_stale_enriched :
    claimNeedsEnrichment dbTtl 10 7 "React" = true ∧
    entitiesToEnrich dbTtl ["React"] = [] := by
  constructor <;> rfl

/-- C5 (amended).  The background worker enriches exactly the names for
which no stored entity row of that name has is_enriched set; in
particular names with no stored row at all are enriched, and the
cache-TTL recency rule is not consulted on this path. -/
theorem background_worker_filter_characterization (db : DB) (names : List String) (n : String) :
    n ∈ entitiesToEnrich db names ↔
      n ∈ names ∧ ∀ e ∈ db.entities, e.name = n → e.isEnriched = false := by
  unfold entitiesToEnrich getEntitiesByNames
  by_cases h : names.isEmpty
  · rw [List.isEmpty_iff] at h
    subst h
    simp
  · rw [if_neg h]
    rw [List.mem_filter]
    simp only [Bool.not_eq_true', List.elem_eq_mem, decide_eq_false_iff_not,
      List.mem_map, List.mem_filter, not_exists, not_and]
    constructor
    · rintro ⟨hn, hb⟩
      refine ⟨hn, ?_⟩
      intro e he hename
      by_contra hen
      rw [Bool.not_eq_false] at hen
      exact hb e ⟨⟨he, by rw [hename]; simp [hn]⟩, hen⟩ hename
    · rintro ⟨hn, hall⟩
      refine ⟨hn, ?_⟩
      rintro e ⟨⟨he, _⟩, hen⟩ hename
      exact absurd (hall e he hename) (by rw [hen]; simp)

/-- C5 (witness).  The characterization applied to a concrete store:
the never-enriched name Neo4j is kept by the worker filter on `dbFix`. -/
theorem background_worker_filter_witness :
    "Neo4j" ∈ entitiesToEnrich dbFix ["Neo4j", "React"] :=
  (background_worker_filter_characterization dbFix ["Neo4j", "React"] "Neo4j").mpr
    (by constructor
        · simp
        · intro e he hn
          fin_cases he <;> simp_all [dbFix])

/-- C2 (code evaluated at the failing input).  Before the ingest, tab 1
is active in the store and belongs to the engine cluster `clusterFix`;
the ingested batch contains only tab 2.  After the ingest the row of
tab 1 is gone from the tabs table: reconciliation calls close_tab and
then clusterer.remove_tab, whose remove_tab_from_cluster hard-deletes
the row through KnowledgeGraphDB.remove_tab — the claim (and the intent
recorded in the close_tab and ingest docstrings) says the row should
merely have been marked closed. -/
theorem reconciliation_hard_deletes_closed_tab_row :
    (stFix.db.tabs.filter (fun r => r.tid == 1 && r.isActive)).length = 1 ∧
    ((ingest pFix 3 stFix [tabTwo] 5).1.db.tabs.filter (fun r => r.tid == 1)) = [] := by
  constructor <;> rfl

/-- C3 (code evaluated at the failing input).  In `stFix` the entity
Neo4j (id 0) is referenced only by tab 1; the ingested batch contains
only tab 2, so reconciliation closes tab 1, the last tab referencing
Neo4j, and then runs the orphan collection.  Yet after the ingest the
entity still exists: the schema declares ON DELETE CASCADE on
tab_entities but PRAGMA foreign_keys is never enabled, so deleting the
tabs row leaves the (1, 0) link dangling and get_orphaned_entities
never reports the entity. -/
theorem orphaned_entity_survives_reconciliation :
    (stFix.db.tabEntities.filter (fun te => te.2 == 0)) = [(1, 0)] ∧
    ((ingest pFix 3 stFix [tabTwo] 5).1.db.tabs.filter (fun r => r.tid == 1)) = [] ∧
    ((ingest pFix 3 stFix [tabTwo] 5).1.db.entities.map (fun e => e.name)) = ["Neo4j", "React"] ∧
    ((ingest pFix 3 stFix [tabTwo] 5).1.db.tabEntities.contains (1, 0)) = true := by
  refine ⟨rfl, rfl, rfl, rfl⟩

/-- C4 (counterexample).  On the single-tab processing path, a tab that
matches no cluster seeds a new cluster through create_new_cluster with
defer_naming = False, which invokes LLM naming immediately: the naming
log of `processTab` on an empty engine records one naming call on a
cluster containing exactly 1 tab, and the resulting singleton cluster
carries the generated name instead of the placeholder. -/
theorem process_tab_names_singleton_cluster :
    (processTab pFix 3 dbEmpty [] 0 tabOne 0).2.2.2 = [1] ∧
    ((processTab pFix 3 dbEmpty [] 0 tabOne 0).1.map (fun c => (c.name, c.tabs.length)))
      = [("Named", 1)] := by
  constructor <;> rfl

/-- Helper: filter-then-filterMap over a mapped list, when the map
preserves name and embedding. -/
theorem viewList_map (l : List EntityRow) (f : EntityRow → EntityRow)
    (h : ∀ e, (f e).name = e.name ∧ (f e).embedding = e.embedding) (ns : List String) :
    ((l.map f).filter (fun e => ns.contains e.name)).filterMap (fun e => e.embedding)
      = (l.filter (fun e => ns.contains e.name)).filterMap (fun e => e.embedding) := by
  induction l with
  | nil => rfl
  | cons a t ih =>
    simp only [List.map_cons, List.filter_cons, (h a).1]
    by_cases hc : ns.contains a.name
    · rw [if_pos hc, if_pos hc]
      simp only [List.filterMap_cons, (h a).2, ih]
    · rw [if_neg hc, if_neg hc, ih]

theorem embView_entities_eq {db db2 : DB} (h : db2.entities = db.entities) (ns : List String) :
    embView db2 ns = embView db ns := by
  unfold embView
  rw [h]

theorem embView_map (db : DB) (f : EntityRow → EntityRow)
    (h : ∀ e, (f e).name = e.name ∧ (f e).embedding = e.embedding) (ns : List String) :
    embView { db with entities := db.entities.map f } ns = embView db ns :=
  viewList_map db.entities f h ns

theorem embView_append_none (db : DB) (row : EntityRow) (hrow : row.embedding = none)
    (ns : List String) :
    embView { db with entities := db.entities ++ [row] } ns = embView db ns := by
  unfold embView
  rw [List.filter_append, List.filterMap_append]
  have h0 : (List.filter (fun e => ns.contains e.name) [row]).filterMap (fun e => e.embedding) = [] := by
    refine List.filterMap_eq_nil_iff.mpr ?_
    intro a ha
    have ha2 : a = row := by
      have hm := (List.mem_filter.mp ha).1
      simpa using hm
    rw [ha2]
    exact hrow
  rw [h0, List.append_nil]

theorem embView_addEntity (db : DB) (row : EntityRow) (hrow : row.embedding = none)
    (ns : List String) :
    embView (addEntity db row).2 ns = embView db ns := by
  unfold addEntity
  split
  · rfl
  · exact embView_append_none db { row with eid := db.nextEntityId } hrow ns

theorem embView_linkTabToEntity (db : DB) (tid : Int) (eid : Nat) (ns : List String) :
    embView (linkTabToEntity db tid eid) ns = embView db ns := by
  unfold linkTabToEntity
  split <;> rfl

theorem embView_saveEntityTabContext (db : DB) (eid : Nat) (tid : Int) (d : String)
    (ns : List String) :
    embView (saveEntityTabContext db eid tid d) ns = embView db ns := rfl

theorem embView_updateEntityEnrichment (db : DB) (eid : Nat) (descr etype : String)
    (related : List String) (src : Option String) (now : Int) (ns : List String) :
    embView (updateEntityEnrichment db eid descr etype related src now) ns = embView db ns := by
  unfold updateEntityEnrichment
  refine embView_map db _ (fun e => ?_) ns
  constructor <;> (by_cases h : e.eid == eid <;> simp [h])

theorem embView_addTabRow (db : DB) (tid : Int) (url title : String) (emb : Option Vec)
    (ns : List String) :
    embView (addTabRow db tid url title emb) ns = embView db ns := by
  unfold addTabRow
  split <;> rfl

theorem embView_applyEnrichment (db : DB) (eid : Nat) (n : String) (tid : Int)
    (enr : String → Int → Option EnrichOut) (now : Int) (ns : List String) :
    embView (applyEnrichment db eid n tid enr now) ns = embView db ns := by
  unfold applyEnrichment
  cases enr n tid with
  | none => rfl
  | some out =>
      rw [embView_updateEntityEnrichment]
      split
      · exact embView_saveEntityTabContext ..
      · rfl

theorem embView_storeTabInGraph (p : Params) (db : DB) (t : Tab) (now : Int)
    (ns : List String) :
    embView (storeTabInGraph p db t now) ns = embView db ns := by
  unfold storeTabInGraph
  rw [show embView db ns = embView (addTabRow db t.id t.url t.title t.embedding) ns from
    (embView_addTabRow db t.id t.url t.title t.embedding ns).symm]
  generalize addTabRow db t.id t.url t.title t.embedding = d0
  induction t.entities generalizing d0 with
  | nil => rfl
  | cons a rest ih =>
    rw [List.foldl_cons]
    rw [ih]
    cases hfind : findEntityByName d0 a with
    | none =>
        simp only [hfind]
        rw [embView_linkTabToEntity]
        cases p.enricher with
        | none => exact embView_addEntity d0 _ rfl ns
        | some enr =>
            rw [embView_applyEnrichment]
            exact embView_addEntity d0 _ rfl ns
    | some e =>
        simp only [hfind]
        rw [embView_linkTabToEntity]
        cases p.enricher with
        | none => rfl
        | some enr =>
            by_cases hctx : getEntityTabContext d0 e.eid t.id == none
            · simp [hctx, embView_applyEnrichment]
            · rw [Bool.not_eq_true] at hctx
              simp [hctx]


theorem updateSharedEntities_proj (c : Cluster) :
    (updateSharedEntities c).tabs = c.tabs ∧
    (updateSharedEntities c).centroid = c.centroid ∧
    (updateSharedEntities c).cid = c.cid ∧
    (updateSharedEntities c).tabCount = c.tabCount ∧
    (updateSharedEntities c).tabsAddedSinceNaming = c.tabsAddedSinceNaming := by
  unfold updateSharedEntities
  split <;> exact ⟨rfl, rfl, rfl, rfl, rfl⟩

theorem entityEmbeddingsFor_eq (db : DB) (tabs : List Tab) :
    entityEmbeddingsFor db tabs = embView db (allEntityNames tabs) := by
  unfold entityEmbeddingsFor getEntitiesByNames embView
  by_cases h : (allEntityNames tabs).isEmpty
  · rw [if_pos h, List.isEmpty_iff] at *
    rw [h]
    simp
  · rw [if_neg h]

theorem updateCentroid_eq_spec (db : DB) (c : Cluster) :
    updateCentroid (some db) c = { c with centroid := centroidSpec db c.tabs } := by
  unfold updateCentroid centroidSpec
  simp only [entityEmbeddingsFor_eq]
  by_cases h0 : c.tabs.isEmpty
  · rw [if_pos h0]
    rw [List.isEmpty_iff] at h0
    rw [h0]
    have hv : embView db (allEntityNames ([] : List Tab)) = [] := by
      rw [show allEntityNames ([] : List Tab) = [] from rfl]
      unfold embView
      refine List.filterMap_eq_nil_iff.mpr ?_
      intro a ha
      exact absurd ((List.mem_filter.mp ha).2) (by simp)
    rw [hv]
    rfl
  · rw [if_neg h0]
    split
    · rfl
    · split
      · rfl
      · rfl

theorem length_filter_lt_of_neg (l : List Tab) (q : Tab → Bool) (x : Tab)
    (hx : x ∈ l) (hqx : q x = false) :
    (l.filter q).length < l.length := by
  induction l with
  | nil => cases hx
  | cons a t ih =>
    rw [List.filter_cons]
    rcases List.mem_cons.mp hx with h | h
    · subst h
      rw [if_neg (by simp [hqx])]
      exact Nat.lt_succ_of_le (List.length_filter_le q t)
    · by_cases hqa : q a
      · rw [if_pos hqa]
        simpa using Nat.succ_lt_succ (ih h)
      · rw [if_neg hqa]
        exact Nat.lt_succ_of_le (Nat.le_of_lt (ih h))

theorem removeTabById_of_mem (c : Cluster) (tid : Int)
    (hmem : c.tabs.any (fun u => u.id == tid) = true) :
    c.removeTabById tid =
      (true, { c with tabs := c.tabs.filter (fun u => u.id != tid),
                      tabCount := (c.tabs.filter (fun u => u.id != tid)).length }) := by
  obtain ⟨u, hu, hid⟩ := List.any_eq_true.mp hmem
  unfold Cluster.removeTabById
  rw [if_pos (length_filter_lt_of_neg c.tabs _ u hu (by simp_all))]

theorem centroidSpec_entities_eq {db db2 : DB} (h : db2.entities = db.entities)
    (tabs : List Tab) :
    centroidSpec db2 tabs = centroidSpec db tabs := by
  unfold centroidSpec
  rw [embView_entities_eq h]

theorem centroidSpec_storeTabInGraph (p : Params) (db : DB) (t : Tab) (now : Int)
    (tabs : List Tab) :
    centroidSpec (storeTabInGraph p db t now) tabs = centroidSpec db tabs := by
  unfold centroidSpec
  rw [embView_storeTabInGraph]

theorem addTabToCluster_proj (p : Params) (rt : Nat) (db : DB) (c : Cluster)
    (t : Tab) (now : Int) :
    (addTabToCluster p rt db c t now).1.centroid
        = (updateSharedEntities (updateCentroid (some db) (c.addTab t))).centroid ∧
    (addTabToCluster p rt db c t now).1.tabs
        = (updateSharedEntities (updateCentroid (some db) (c.addTab t))).tabs ∧
    (addTabToCluster p rt db c t now).2.1 = storeTabInGraph p db t now := by
  simp only [addTabToCluster]
  split <;> exact ⟨rfl, rfl, rfl⟩

theorem addTabToCluster_invariant (p : Params) (rt : Nat) (db : DB) (c : Cluster)
    (t : Tab) (now : Int) :
    (addTabToCluster p rt db c t now).1.centroid
      = centroidSpec (addTabToCluster p rt db c t now).2.1
          (addTabToCluster p rt db c t now).1.tabs := by
  obtain ⟨h1, h2, h3⟩ := addTabToCluster_proj p rt db c t now
  rw [h1, h2, h3, centroidSpec_storeTabInGraph]
  rw [updateCentroid_eq_spec]
  obtain ⟨htabs, hcent, -, -, -⟩ :=
    updateSharedEntities_proj { c.addTab t with centroid := centroidSpec db (c.addTab t).tabs }
  rw [htabs, hcent]

theorem removeTabFromCluster_invariant (db : DB) (clusters : List Cluster) (c : Cluster)
    (tid : Int) (hmem : c.tabs.any (fun u => u.id == tid) = true) :
    ∀ c2 ∈ (removeTabFromCluster db clusters c tid).2.1, c2.cid = c.cid →
      c2.centroid = centroidSpec (removeTabFromCluster db clusters c tid).2.2 c2.tabs := by
  unfold removeTabFromCluster
  rw [removeTabById_of_mem c tid hmem]
  dsimp only
  rw [if_pos rfl]
  set y := updateSharedEntities (updateCentroid (some db)
    { c with tabs := c.tabs.filter (fun u => u.id != tid),
             tabCount := (c.tabs.filter (fun u => u.id != tid)).length }) with hy
  by_cases hsmall : y.tabCount < 2
  · rw [if_pos hsmall]
    intro c2 hc2 hcid
    have hq := (List.mem_filter.mp hc2).2
    rw [bne_iff_ne] at hq
    exact absurd hcid hq
  · rw [if_neg hsmall]
    intro c2 hc2 hcid
    obtain ⟨x, hx, hxe⟩ := List.mem_map.mp hc2
    by_cases hb : x.cid == c.cid
    · rw [if_pos hb] at hxe
      subst hxe
      rw [hy]
      obtain ⟨htabs, hcent, -, -, -⟩ :=
        updateSharedEntities_proj (updateCentroid (some db)
          { c with tabs := c.tabs.filter (fun u => u.id != tid),
                   tabCount := (c.tabs.filter (fun u => u.id != tid)).length })
      rw [htabs, hcent, updateCentroid_eq_spec]
      rw [centroidSpec_entities_eq (show (removeTabRow db tid).entities = db.entities from rfl)]
    · rw [if_neg hb] at hxe
      subst hxe
      rw [hcid] at hb
      simp at hb

/-- C1.  Ghost-cluster prevention: immediately after an add
(`add_tab_to_cluster`) the cluster carried forward by the engine has its
centroid equal to the claimed function of its current tabs and the
post-operation store; and immediately after a removal that actually
removes a tab (`remove_tab_from_cluster`), every cluster the engine
still holds under the operated cluster id satisfies the same equation
against the post-operation store.  Clusters dropped from the engine
(fewer than two tabs remaining) are no longer held, and a removal of an
absent tab id removes no tab. -/
theorem centroid_always_reflects_present_tabs (p : Params) (rt : Nat) (db db2 : DB)
    (c c2 : Cluster) (t : Tab) (clusters : List Cluster) (tid : Int) (now : Int) :
    ((addTabToCluster p rt db c t now).1.centroid
        = centroidSpec (addTabToCluster p rt db c t now).2.1
            (addTabToCluster p rt db c t now).1.tabs)
    ∧ (c2.tabs.any (fun u => u.id == tid) = true →
        ∀ c3 ∈ (removeTabFromCluster db2 clusters c2 tid).2.1, c3.cid = c2.cid →
          c3.centroid = centroidSpec (removeTabFromCluster db2 clusters c2 tid).2.2 c3.tabs) :=
  ⟨addTabToCluster_invariant p rt db c t now,
   fun hmem => removeTabFromCluster_invariant db2 clusters c2 tid hmem⟩

/-- C1 (witness).  The invariant instantiated at a concrete add (tab 3
into the two-tab cluster `clusterFix` over `dbFix`) and a concrete
removal (tab 1 out of the three-tab cluster `clusterThree`), with the
membership hypothesis discharged by computation. -/
theorem centroid_always_reflects_present_tabs_witness :
    ((addTabToCluster pFix 3 dbFix clusterFix tabThree 0).1.centroid
        = centroidSpec (addTabToCluster pFix 3 dbFix clusterFix tabThree 0).2.1
            (addTabToCluster pFix 3 dbFix clusterFix tabThree 0).1.tabs)
    ∧ (∀ c3 ∈ (removeTabFromCluster dbFix [clusterThree] clusterThree 1).2.1,
         c3.cid = clusterThree.cid →
           c3.centroid
             = centroidSpec (removeTabFromCluster dbFix [clusterThree] clusterThree 1).2.2
                 c3.tabs) :=
  ⟨(centroid_always_reflects_present_tabs pFix 3 dbFix dbFix clusterFix clusterThree tabThree
      [clusterThree] 1 0).1,
   (centroid_always_reflects_present_tabs pFix 3 dbFix dbFix clusterFix clusterThree tabThree
      [clusterThree] 1 0).2 (by decide)⟩


theorem foldl_pick {α β : Type} (P : α → Prop) (f : (Option α × β) → α → (Option α × β))
    (hf : ∀ acc a, (f acc a).1 = acc.1 ∨ ((f acc a).1 = some a ∧ P a)) :
    ∀ (l : List α) (acc : Option α × β) (x : α), (l.foldl f acc).1 = some x →
      acc.1 = some x ∨ (x ∈ l ∧ P x) := by
  intro l
  induction l with
  | nil => exact fun acc x h => Or.inl h
  | cons a rest ih =>
      intro acc x h
      rcases ih (f acc a) x h with h2 | h2
      · rcases hf acc a with h3 | h3
        · rw [h3] at h2
          exact Or.inl h2
        · rw [h3.1] at h2
          cases Option.some.inj h2
          exact Or.inr ⟨List.mem_cons_self a rest, h3.2⟩
      · exact Or.inr ⟨List.mem_cons_of_mem a h2.1, h2.2⟩

theorem scoreStep_cases (p : Params) (t : Tab) (emb : Vec) (acc : Option Cluster × ℚ)
    (c : Cluster) :
    (scoreStep p t emb acc c).1 = acc.1 ∨
      ((scoreStep p t emb acc c).1 = some c ∧ c.centroid ≠ none) := by
  unfold scoreStep
  cases ha : c.centroid with
  | none => exact Or.inl rfl
  | some cen =>
      dsimp only
      set sim := if 0 < p.entityWeight ∧ t.entities.isEmpty = false ∧ c.sharedEntities.isEmpty = false then
          hybridSimilarity p emb cen t.entities c.sharedEntities
        else p.cos emb cen with hs
      by_cases hlt : acc.2 < sim
      · rw [if_pos hlt]
        exact Or.inr ⟨rfl, by simp [ha]⟩
      · rw [if_neg hlt]
        exact Or.inl rfl

theorem findBestCluster_picks (p : Params) (clusters : List Cluster) (t : Tab)
    (c : Cluster) (q : ℚ) (h : findBestCluster p clusters t = some (c, q)) :
    c ∈ clusters ∧ c.centroid ≠ none := by
  unfold findBestCluster at h
  by_cases h1 : (t.embedding.getD []).isEmpty
  · rw [if_pos h1] at h
    cases h
  · rw [if_neg h1] at h
    by_cases h2 : clusters.isEmpty
    · rw [if_pos h2] at h
      cases h
    · rw [if_neg h2] at h
      dsimp only at h
      cases hfold : (clusters.foldl (scoreStep p t (t.embedding.getD [])) (none, -1)).1 with
      | none =>
          rw [hfold] at h
          split at h
          · cases h
          · cases h
      | some c0 =>
          rw [hfold] at h
          split at h
          · cases Option.some.inj h
            rcases foldl_pick (fun x => x.centroid ≠ none) (scoreStep p t (t.embedding.getD []))
              (scoreStep_cases p t (t.embedding.getD [])) clusters (none, -1) c hfold with
                hcase | hcase
            · cases hcase
            · exact hcase
          · cases h


theorem addTab_cases (c : Cluster) (t : Tab) :
    (c.addTab t = c ∧ c.tabs.any (fun u => u.id == t.id) = true) ∨
    (c.addTab t = { c with
                    tabs := c.tabs ++ [t],
                    tabCount := c.tabCount + 1,
                    tabsAddedSinceNaming := c.tabsAddedSinceNaming + 1 }) := by
  unfold Cluster.addTab
  by_cases h : c.tabs.any (fun u => u.id == t.id)
  · rw [if_pos h]
    exact Or.inl ⟨rfl, h⟩
  · rw [if_neg h]
    exact Or.inr rfl

theorem wrap_proj (db : DB) (x : Cluster) :
    (updateSharedEntities (updateCentroid (some db) x)).tabs = x.tabs ∧
    (updateSharedEntities (updateCentroid (some db) x)).tabCount = x.tabCount ∧
    (updateSharedEntities (updateCentroid (some db) x)).tabsAddedSinceNaming
      = x.tabsAddedSinceNaming ∧
    (updateSharedEntities (updateCentroid (some db) x)).cid = x.cid :=
  ⟨by rw [updateCentroid_eq_spec, (updateSharedEntities_proj _).1],
   by rw [updateCentroid_eq_spec, (updateSharedEntities_proj _).2.2.2.1],
   by rw [updateCentroid_eq_spec, (updateSharedEntities_proj _).2.2.2.2],
   by rw [updateCentroid_eq_spec, (updateSharedEntities_proj _).2.2.1]⟩

theorem addTabToCluster_cases (p : Params) (rt : Nat) (db : DB) (c : Cluster)
    (t : Tab) (now : Int) :
    (rt ≤ (updateSharedEntities (updateCentroid (some db) (c.addTab t))).tabsAddedSinceNaming ∧
      (addTabToCluster p rt db c t now).2.2
        = [(updateSharedEntities (updateCentroid (some db) (c.addTab t))).tabs.length] ∧
      (addTabToCluster p rt db c t now).1
        = { (updateSharedEntities (updateCentroid (some db) (c.addTab t))) with
            name := p.gen (updateSharedEntities (updateCentroid (some db) (c.addTab t))),
            tabsAddedSinceNaming := 0 }) ∨
    (¬ rt ≤ (updateSharedEntities (updateCentroid (some db) (c.addTab t))).tabsAddedSinceNaming ∧
      (addTabToCluster p rt db c t now).2.2 = [] ∧
      (addTabToCluster p rt db c t now).1
        = updateSharedEntities (updateCentroid (some db) (c.addTab t))) := by
  simp only [addTabToCluster]
  by_cases h : rt ≤ (updateSharedEntities (updateCentroid (some db) (c.addTab t))).tabsAddedSinceNaming
  · rw [if_pos h]
    exact Or.inl ⟨h, rfl, rfl⟩
  · rw [if_neg h]
    exact Or.inr ⟨h, rfl, rfl⟩

theorem addTabToCluster_guarded (p : Params) (rt : Nat) (db : DB) (c : Cluster)
    (t : Tab) (now : Int) (hrt : 2 ≤ rt) (hsane : ClusterSane rt c) (hne : c.tabs ≠ []) :
    (∀ ev ∈ (addTabToCluster p rt db c t now).2.2, 2 ≤ ev) ∧
    ClusterSane rt (addTabToCluster p rt db c t now).1 := by
  obtain ⟨hcount, hsing, -⟩ := hsane
  obtain ⟨hw1, hw2, hw3, -⟩ := wrap_proj db (c.addTab t)
  have hlen1 : 1 ≤ c.tabs.length := List.length_pos.mpr hne
  have hA : (c.addTab t).tabs.length = c.tabs.length ∨
      ((c.addTab t).tabs.length = c.tabs.length + 1 ∧
        (c.addTab t).tabCount = c.tabCount + 1 ∧
        (c.addTab t).tabsAddedSinceNaming = c.tabsAddedSinceNaming + 1 ∧
        2 ≤ (c.addTab t).tabs.length) := by
    rcases addTab_cases c t with ⟨heq, -⟩ | heq
    · rw [heq]
      exact Or.inl rfl
    · rw [heq]
      refine Or.inr ⟨by simp, rfl, rfl, ?_⟩
      simp only [List.length_append, List.length_cons, List.length_nil]
      omega
  have hAcount : (c.addTab t).tabCount = (c.addTab t).tabs.length := by
    rcases addTab_cases c t with ⟨heq, -⟩ | heq
    · rw [heq]
      exact hcount
    · rw [heq]
      simp only [List.length_append, List.length_cons, List.length_nil]
      rw [hcount]
  have hAsing : (c.addTab t).tabs.length ≤ 1 →
      (c.addTab t).tabsAddedSinceNaming = c.tabsAddedSinceNaming := by
    rcases hA with h | ⟨hl, -, -, h2⟩
    · intro hx
      rcases addTab_cases c t with ⟨heq, -⟩ | heq
      · rw [heq]
      · exfalso
        rw [heq] at hx
        simp only [List.length_append, List.length_cons, List.length_nil] at hx
        omega
    · intro hx
      omega
  have hAylen : (c.addTab t).tabs ≠ [] := by
    rcases addTab_cases c t with ⟨heq, -⟩ | heq
    · rw [heq]
      exact hne
    · rw [heq]
      simp
  rcases addTabToCluster_cases p rt db c t now with ⟨hev, he2, he3⟩ | ⟨hev, he2, he3⟩
  · -- a rename fires: the cluster must hold at least two tabs
    have hlen2 : 2 ≤ (c.addTab t).tabs.length := by
      rcases hA with h | ⟨-, -, -, h2⟩
      · by_contra hx
        have hx2 : (c.addTab t).tabs.length ≤ 1 := by omega
        have := hsing (by omega)
        rw [hw3, hAsing hx2] at hev
        omega
      · exact h2
    constructor
    · intro ev hevm
      rw [he2] at hevm
      rcases List.mem_singleton.mp hevm with rfl
      rw [hw1]
      exact hlen2
    · rw [he3]
      refine ⟨?_, ?_, ?_⟩
      · show (updateSharedEntities (updateCentroid (some db) (c.addTab t))).tabCount
            = (updateSharedEntities (updateCentroid (some db) (c.addTab t))).tabs.length
        rw [hw1, hw2, hAcount]
      · intro hx
        show (0 : Nat) < rt
        omega
      · intro hx
        exfalso
        rw [hw1] at hx
        exact hAylen hx
  · constructor
    · intro ev hevm
      rw [he2] at hevm
      cases hevm
    · rw [he3]
      refine ⟨?_, ?_, ?_⟩
      · rw [hw1, hw2, hAcount]
      · intro hx
        rw [hw1] at hx
        rw [hw3, hAsing hx]
        exact hsing (by rcases hA with h | ⟨hl, -, -, h2⟩ <;> omega)
      · intro hx
        exfalso
        rw [hw1] at hx
        exact hAylen hx


theorem createNewCluster_deferred (p : Params) (rt : Nat) (db : DB)
    (clusters : List Cluster) (nextId : Nat) (t : Tab) (now : Int) (hrt : 2 ≤ rt) :
    (createNewCluster p rt db clusters nextId t none true now).2.2.2 = [] ∧
    ∀ c2 ∈ (createNewCluster p rt db clusters nextId t none true now).1,
      c2 ∈ clusters ∨ ClusterSane rt c2 := by
  have hkey : createNewCluster p rt db clusters nextId t none true now
      = (clusters ++ [(addTabToCluster p 999 db
            { cid := nextId
              name := "New Cluster"
              tabs := []
              sharedEntities := []
              tabCount := 0
              tabsAddedSinceNaming := 0
              centroid := none } t now).1],
         (addTabToCluster p 999 db
            { cid := nextId
              name := "New Cluster"
              tabs := []
              sharedEntities := []
              tabCount := 0
              tabsAddedSinceNaming := 0
              centroid := none } t now).2.1,
         nextId + 1,
         (addTabToCluster p 999 db
            { cid := nextId
              name := "New Cluster"
              tabs := []
              sharedEntities := []
              tabCount := 0
              tabsAddedSinceNaming := 0
              centroid := none } t now).2.2) := rfl
  have hcases := addTabToCluster_cases p 999 db
    { cid := nextId
      name := "New Cluster"
      tabs := []
      sharedEntities := []
      tabCount := 0
      tabsAddedSinceNaming := 0
      centroid := none } t now
  obtain ⟨hw1, hw2, hw3, -⟩ := wrap_proj db
    (Cluster.addTab
      { cid := nextId
        name := "New Cluster"
        tabs := []
        sharedEntities := []
        tabCount := 0
        tabsAddedSinceNaming := 0
        centroid := none } t)
  have hAdd : Cluster.addTab
      { cid := nextId
        name := "New Cluster"
        tabs := []
        sharedEntities := []
        tabCount := 0
        tabsAddedSinceNaming := 0
        centroid := none } t
      = { cid := nextId
          name := "New Cluster"
          tabs := [t]
          sharedEntities := []
          tabCount := 1
          tabsAddedSinceNaming := 1
          centroid := none } := by
    unfold Cluster.addTab
    rfl
  rcases hcases with ⟨hev, -, -⟩ | ⟨-, he2, he3⟩
  · exfalso
    rw [hw3, hAdd] at hev
    dsimp only at hev
    omega
  · constructor
    · rw [hkey]
      exact he2
    · intro c2 hc2
      rw [hkey] at hc2
      rcases List.mem_append.mp hc2 with h | h
      · exact Or.inl h
      · rcases List.mem_singleton.mp h with rfl
        refine Or.inr ?_
        rw [he3]
        refine ⟨?_, ?_, ?_⟩
        · rw [hw1, hw2, hAdd]
          rfl
        · intro hx
          rw [hw3, hAdd]
          dsimp only
          omega
        · intro hx
          exfalso
          rw [hw1, hAdd] at hx
          cases hx

theorem batchStep_inv (p : Params) (rt : Nat) (now : Int) (st : BatchState) (t : Tab)
    (hrt : 2 ≤ rt) (hcl : ∀ c ∈ st.clusters, ClusterSane rt c)
    (hev : ∀ ev ∈ st.events, 2 ≤ ev) :
    (∀ c ∈ (batchStep p rt now st t).clusters, ClusterSane rt c) ∧
    (∀ ev ∈ (batchStep p rt now st t).events, 2 ≤ ev) := by
  unfold batchStep
  cases hfind : findBestCluster p st.clusters t with
  | none =>
      dsimp only
      obtain ⟨hz1, hz2⟩ := createNewCluster_deferred p rt st.db st.clusters st.nextId t now hrt
      constructor
      · intro c hc
        rcases hz2 c hc with h | h
        · exact hcl c h
        · exact h
      · intro ev hevm
        rcases List.mem_append.mp hevm with h | h
        · exact hev ev h
        · rw [hz1] at h
          cases h
  | some res =>
      dsimp only
      obtain ⟨hmem, hcen⟩ := findBestCluster_picks p st.clusters t res.1 res.2 (by rw [hfind])
      have hsane1 := hcl res.1 hmem
      have hne : res.1.tabs ≠ [] := fun hnil => hcen (hsane1.2.2 hnil)
      obtain ⟨hg1, hg2⟩ := addTabToCluster_guarded p rt st.db res.1 t now hrt hsane1 hne
      constructor
      · intro c hc
        rcases List.mem_map.mp hc with ⟨x, hx, hxe⟩
        by_cases hb : x.cid == res.1.cid
        · rw [if_pos hb] at hxe
          subst hxe
          exact hg2
        · rw [if_neg hb] at hxe
          subst hxe
          exact hcl x hx
      · intro ev hevm
        rcases List.mem_append.mp hevm with h | h
        · exact hev ev h
        · exact hg1 ev h

theorem batchLoop_inv (p : Params) (rt : Nat) (now : Int) (l : List Tab) (hrt : 2 ≤ rt) :
    ∀ st : BatchState, (∀ c ∈ st.clusters, ClusterSane rt c) → (∀ ev ∈ st.events, 2 ≤ ev) →
      (∀ c ∈ (l.foldl (batchStep p rt now) st).clusters, ClusterSane rt c) ∧
      (∀ ev ∈ (l.foldl (batchStep p rt now) st).events, 2 ≤ ev) := by
  induction l with
  | nil => exact fun st h1 h2 => ⟨h1, h2⟩
  | cons t rest ih =>
      intro st h1 h2
      rw [List.foldl_cons]
      obtain ⟨g1, g2⟩ := batchStep_inv p rt now st t hrt h1 h2
      exact ih (batchStep p rt now st t) g1 g2

theorem batchTail_inv (p : Params) (rt : Nat) (now : Int) (l : List Tab)
    (st0 : BatchState) (before : List Nat) (hrt : 2 ≤ rt)
    (h1 : ∀ c ∈ st0.clusters, ClusterSane rt c) (h2 : ∀ ev ∈ st0.events, 2 ≤ ev) :
    ∀ ev ∈ (
      let st1 := l.foldl (batchStep p rt now) st0
      let toName := st1.clusters.filter
        (fun c => !(before.contains c.cid) && c.name == "New Cluster" && decide (2 ≤ c.tabCount))
      if toName.isEmpty then st1
      else
        let names := generateClusterNamesBatch p toName
        { st1 with
            clusters := applyNames st1.clusters (toName.zip names),
            events := st1.events ++ toName.map (fun c => c.tabs.length) }).events, 2 ≤ ev := by
  intro ev hev
  dsimp only at hev
  obtain ⟨g1, g2⟩ := batchLoop_inv p rt now l hrt st0 h1 h2
  split at hev
  · exact g2 ev hev
  · rcases List.mem_append.mp hev with h | h
    · exact g2 ev h
    · rcases List.mem_map.mp h with ⟨c, hc, rfl⟩
      have hc2 := List.mem_filter.mp hc
      have hs := g1 c hc2.1
      have hb := hc2.2
      simp only [Bool.and_eq_true, decide_eq_true_eq] at hb
      have hcnt : c.tabCount = c.tabs.length := hs.1
      omega


/-- C4 (amended).  On the batch-ingest path the engine never passes a
cluster with fewer than two tabs to LLM naming: if the rename threshold
is at least 2 and every starting cluster is consistent (`ClusterSane`),
then every entry of the naming log of `process_tabs_batch` — each one
the number of tabs held by a cluster at the moment an LLM naming call is
made for it, whether an online rename during an add or the final batch
naming — is at least 2.  (The single-tab path refuted by the
counterexample is the create_new_cluster call with defer_naming False.) -/
theorem batch_naming_only_multi_tab_clusters (p : Params) (rt : Nat) (db : DB)
    (clusters : List Cluster) (nextId : Nat) (tabs : List Tab) (now : Int)
    (hrt : 2 ≤ rt) (hsane : ∀ c ∈ clusters, ClusterSane rt c) :
    ∀ ev ∈ (processTabsBatch p rt db clusters nextId tabs now).events, 2 ≤ ev := by
  intro ev hev
  unfold processTabsBatch at hev
  exact batchTail_inv p rt now
    (zipAssign (fun t => t.entities.isEmpty) (fun t es => { t with entities := es })
      (zipAssign (fun t => (t.embedding.getD []).isEmpty)
        (fun t v => { t with embedding := some v }) tabs
        (p.embedBatch ((tabs.filter (fun t => (t.embedding.getD []).isEmpty)).map
          (fun t => t.title ++ " " ++ t.url))))
      (p.extractBatch (((zipAssign (fun t => (t.embedding.getD []).isEmpty)
        (fun t v => { t with embedding := some v }) tabs
        (p.embedBatch ((tabs.filter (fun t => (t.embedding.getD []).isEmpty)).map
          (fun t => t.title ++ " " ++ t.url)))).filter (fun t => t.entities.isEmpty)).map
          (fun t => (t.title, t.url)))))
    { clusters := clusters, db := db, nextId := nextId, events := [] }
    (clusters.map (fun c => c.cid)) hrt hsane
    (fun e he => absurd he (List.not_mem_nil e)) ev hev

/-- C4 (witness).  The amended theorem applied to a concrete batch on
an empty engine in which tab 4 joins the cluster seeded by tab 1, so
that the batch-naming pass fires exactly one naming call; the hypotheses
are discharged and the named cluster is seen to hold 2 tabs. -/
theorem batch_naming_only_multi_tab_clusters_witness :
    (2 : Nat) ≤ ((processTabsBatch pZero 3 dbEmpty [] 0 [tabOne, tabFour] 0).events.headD 0) :=
  batch_naming_only_multi_tab_clusters pZero 3 dbEmpty [] 0 [tabOne, tabFour] 0 (by decide)
    (fun c hc => absurd hc (List.not_mem_nil c))
    ((processTabsBatch pZero 3 dbEmpty [] 0 [tabOne, tabFour] 0).events.headD 0)
    (by decide)


end KG
